import Mathlib

/-!
Verification of the quackamole-shared-types protocol specification.

The repository's only source file, `src/index.d.ts`, is a TypeScript
declaration file: it defines the data model (`IBaseRoom`, `IUser`,
`IPlugin`, …) and the wire-message unions of a room-coordination server,
but contains no executable logic.  The operational behaviour (Room Store,
User Directory, Relay fan-out, Request/Await Correlator, Coordinator) is
therefore modelled from the specification, faithful to its words, with the
type shapes taken from the declarations.
-/

namespace Quackamole

/-! ## Data model (from `src/index.d.ts`) -/

/-- Embeds `MediaStream` (an opaque browser media handle referenced by
`IUser.stream`); the coordination core never inspects it. -/
inductive MediaStream : Type where
  | handle : MediaStream
deriving Repr, DecidableEq

/-- Embeds `IPlugin` (src/index.d.ts): `{ id, name, version, description, url }`. -/
structure IPlugin where
  id : String
  name : String
  version : String
  description : String
  url : String
deriving Repr, DecidableEq

/-- Embeds `IUser` (src/index.d.ts): `{ id, displayName, status, lastSeen,
stream? }`.  `lastSeen : number` is a timestamp, modelled as `Nat`. -/
structure IUser where
  id : String
  displayName : String
  status : String
  lastSeen : Nat
  stream : Option MediaStream
deriving Repr, DecidableEq

/-- Embeds `IUserSecret` (src/index.d.ts): `{ userId, secret }`. -/
structure IUserSecret where
  userId : String
  secret : String
deriving Repr, DecidableEq

/-- Embeds `IBaseRoom` (src/index.d.ts):
`{ id, name, maxUsers, joinedUsers, adminUsers, metadata, parentRoom?,
childRooms? }`.  `maxUsers : number` is an occupancy bound, modelled as
`Nat`; `metadata : Record<string, unknown>` is modelled as an association
list of opaque string values; the optional recursive `parentRoom` and
`childRooms` fields make this a nested inductive type. -/
inductive IBaseRoom : Type where
  | mk (id : String) (name : String) (maxUsers : Nat)
       (joinedUsers : List String) (adminUsers : List String)
       (metadata : List (String × String))
       (parentRoom : Option IBaseRoom)
       (childRooms : Option (List IBaseRoom)) : IBaseRoom

def IBaseRoom.id : IBaseRoom → String
  | .mk i _ _ _ _ _ _ _ => i

def IBaseRoom.name : IBaseRoom → String
  | .mk _ n _ _ _ _ _ _ => n

def IBaseRoom.maxUsers : IBaseRoom → Nat
  | .mk _ _ m _ _ _ _ _ => m

def IBaseRoom.joinedUsers : IBaseRoom → List String
  | .mk _ _ _ j _ _ _ _ => j

def IBaseRoom.adminUsers : IBaseRoom → List String
  | .mk _ _ _ _ a _ _ _ => a

def IBaseRoom.metadata : IBaseRoom → List (String × String)
  | .mk _ _ _ _ _ md _ _ => md

def IBaseRoom.parentRoom : IBaseRoom → Option IBaseRoom
  | .mk _ _ _ _ _ _ p _ => p

def IBaseRoom.childRooms : IBaseRoom → Option (List IBaseRoom)
  | .mk _ _ _ _ _ _ _ c => c

/-- Replace the `joinedUsers` and `adminUsers` fields of a room, keeping
every other field. -/
def IBaseRoom.withMembers (r : IBaseRoom) (j a : List String) : IBaseRoom :=
  match r with
  | .mk i n m _ _ md p c => .mk i n m j a md p c

/-- Embeds `RoomJoinErrorCode` (src/index.d.ts):
`'wrong_password' | 'already_full' | 'does_not_exist' | 'already_joined'
| 'invalid_admin_id'`. -/
inductive RoomJoinErrorCode : Type where
  | wrong_password
  | already_full
  | does_not_exist
  | already_joined
  | invalid_admin_id
deriving Repr, DecidableEq

/-- Embeds `UserRegisterErrorCode` (src/index.d.ts):
`'missing_display_name' | 'display_name_too_short' | 'display_name_too_long'`. -/
inductive UserRegisterErrorCode : Type where
  | missing_display_name
  | display_name_too_short
  | display_name_too_long
deriving Repr, DecidableEq

/-- Embeds `PluginSetErrorCode` (src/index.d.ts):
`'room_not_found' | 'plugin_not_found_in_db' | 'permission_denied'`. -/
inductive PluginSetErrorCode : Type where
  | room_not_found
  | plugin_not_found_in_db
  | permission_denied
deriving Repr, DecidableEq

/-! ## Room Store (modelled from the spec, §4.2)

The server-side Room Store logic is not part of `src/` (the repository is
declarations only), so it is modelled from the specification. -/

/-- Modelled from the spec: a room entity as the Room Store holds it — the
`IBaseRoom` data together with the optional privileged-join credential.
The credential corresponds to `IAdminRoom.adminId` (marked "TODO
implement" in the source) and backs §4.2's join check (3), the
"password/admin-id check if the room requires one"; `none` means the room
requires no credential to join. -/
structure StoredRoom where
  room : IBaseRoom
  joinSecret : Option String

/-- Modelled from the spec: Room Store state, the set of room entities the
store exclusively owns (§3 Ownership). -/
abbrev RoomStore := List StoredRoom

/-- Modelled from the spec: `get(roomId) -> Room | not-found` (§4.2),
lookup of a room by its identifier. -/
def RoomStore.get (s : RoomStore) (roomId : String) : Option StoredRoom :=
  s.find? (fun sr => sr.room.id == roomId)

/-- Modelled from the spec: §4.2's check (3) — the "password/admin-id check
if the room requires one".  A room with no `joinSecret` admits anyone; a
room with one requires the request to supply exactly that secret. -/
def secretOk (required : Option String) (provided : Option String) : Bool :=
  match required with
  | none => true
  | some s => provided == some s

/-- Modelled from the spec: `create(spec) -> Room` (§4.2).  A freshly
created room has the requested name, capacity and credential, and no
joined or admin users yet (the creator joins by a subsequent join request,
as in the §8 scenario where a created room starts empty). -/
def RoomStore.create (s : RoomStore) (id name : String) (maxUsers : Nat)
    (joinSecret : Option String) : RoomStore :=
  ⟨IBaseRoom.mk id name maxUsers [] [] [] none none, joinSecret⟩ :: s

/-- Modelled from the spec: result of a join operation — the (possibly
updated) store and the error-code list of the response, where an empty
list means success (§4.5). -/
structure JoinResult where
  store : RoomStore
  errors : List RoomJoinErrorCode

/-- Replace the room with identifier `roomId` by `r`, keeping every other
room. -/
def RoomStore.replace (s : RoomStore) (roomId : String) (r : StoredRoom) :
    RoomStore :=
  s.map (fun sr => if sr.room.id == roomId then r else sr)

/-- Modelled from the spec: `join(roomId, userId)` (§4.2).  "Join
validation order, first match wins: (1) room exists, (2) requester not
already joined, (3) password/admin-id check if room requires one,
(4) capacity check.  Capacity check uses `joinedUsers.length < maxUsers`
(strict less-than before admission)."  On success the user is appended to
`joinedUsers`; on any failure the store is unchanged and the single
first-failing error code is reported. -/
def RoomStore.join (s : RoomStore) (roomId userId : String)
    (provided : Option String) : JoinResult :=
  match s.get roomId with
  | none => ⟨s, [.does_not_exist]⟩
  | some sr =>
    if userId ∈ sr.room.joinedUsers then
      ⟨s, [.already_joined]⟩
    else if ¬ secretOk sr.joinSecret provided then
      ⟨s, [.wrong_password]⟩
    else if sr.room.joinedUsers.length < sr.room.maxUsers then
      ⟨s.replace roomId
        ⟨sr.room.withMembers (sr.room.joinedUsers ++ [userId]) sr.room.adminUsers,
         sr.joinSecret⟩, []⟩
    else
      ⟨s, [.already_full]⟩

/-- Modelled from the spec: `leave(roomId, userId) -> ok | not-member`
(§4.2).  The user is removed from `joinedUsers` and, per §3's policy that
"admin rights are revoked on leave", from `adminUsers`; leaving a room one
is not in, or a nonexistent room, changes nothing.  (Room
deletion-on-empty is a configurable policy per §4.2; this model keeps
empty rooms, which §4.5 allows: "else `active` persists indefinitely".) -/
def RoomStore.leave (s : RoomStore) (roomId userId : String) : RoomStore :=
  match s.get roomId with
  | none => s
  | some sr =>
    if userId ∈ sr.room.joinedUsers then
      s.replace roomId
        ⟨sr.room.withMembers (sr.room.joinedUsers.erase userId)
          (sr.room.adminUsers.erase userId), sr.joinSecret⟩
    else s

/-- Modelled from the spec: the room operations that mutate membership
state after creation — joins and leaves (§3 Lifecycle: "mutated by
join/leave"), plus creation of further rooms. -/
inductive RoomOp : Type where
  | create (id name : String) (maxUsers : Nat) (joinSecret : Option String)
  | join (roomId userId : String) (provided : Option String)
  | leave (roomId userId : String)

/-- Modelled from the spec: apply one room operation to the store. -/
def RoomStore.apply (s : RoomStore) : RoomOp → RoomStore
  | .create id name maxUsers joinSecret => s.create id name maxUsers joinSecret
  | .join roomId userId provided => (s.join roomId userId provided).store
  | .leave roomId userId => s.leave roomId userId

/-- Modelled from the spec: apply a sequence of room operations in order. -/
def RoomStore.run (s : RoomStore) (ops : List RoomOp) : RoomStore :=
  ops.foldl RoomStore.apply s

/-- The §3 room invariant: every room satisfies
`joinedUsers.length <= maxUsers`. -/
def RoomStore.capacityInv (s : RoomStore) : Prop :=
  ∀ sr ∈ s, sr.room.joinedUsers.length ≤ sr.room.maxUsers

/-! ## Relay fan-out (message shapes from `src/index.d.ts`, behaviour
modelled from the spec, §4.6) -/

/-- Embeds `IMessageRelayMessage<T>` (src/index.d.ts): the
`request__message_relay` socket-to-server message, flattening its base
fields (`awaitId`, `timestamp?`, `socketId?` — the latter two "set on
server on arrival") and its body `{ roomId, receiverIds?, relayData }`. -/
structure IMessageRelayMessage (T : Type) where
  awaitId : String
  timestamp : Option Nat
  socketId : Option String
  roomId : String
  receiverIds : Option (List String)
  relayData : T
deriving Repr, DecidableEq

/-- Embeds `IMessageRelayDeliveryMessage<T>` (src/index.d.ts):
`{ type: 'message_relay_delivery', awaitId, roomId, senderId, errors,
relayData }`, where `senderId` is "set by server to prevent malicious
users from pretending to send messages as someone else". -/
structure IMessageRelayDeliveryMessage (T : Type) where
  type : String
  awaitId : String
  roomId : String
  senderId : String
  errors : List String
  relayData : T
deriving Repr, DecidableEq

/-- Modelled from the spec (§6): "`timestamp?, socketId?` ... are stamped
by the server on arrival, never trusted from the client."  Whatever the
client put in those fields is overwritten with the connection's true
socket identifier and the arrival time. -/
def stampOnArrival {T : Type} (msg : IMessageRelayMessage T)
    (trueSocketId : String) (now : Nat) : IMessageRelayMessage T :=
  { msg with socketId := some trueSocketId, timestamp := some now }

/-- Modelled from the spec (§4.6): the target set of a relay — "if
`receiverIds` is omitted, deliver to every other member of the room; if
supplied, deliver only to members whose identifier is both a room member
and in `receiverIds`". -/
def relayTargets (room : IBaseRoom) (senderId : String)
    (receiverIds : Option (List String)) : List String :=
  match receiverIds with
  | none => room.joinedUsers.filter (fun m => m ≠ senderId)
  | some rs => room.joinedUsers.filter (fun m => m ∈ rs)

/-- Modelled from the spec (§4.6): the unreachable targets of a relay —
supplied `receiverIds` that are not room members are "silently dropped"
from delivery but reported "in an `errors` list". -/
def relayUnreachable (room : IBaseRoom)
    (receiverIds : Option (List String)) : List String :=
  match receiverIds with
  | none => []
  | some rs => rs.filter (fun r => r ∉ room.joinedUsers)

/-- Modelled from the spec (§4.6): `relay(senderConnection, roomId,
receiverIds?, payload)`.  The incoming message is first stamped on arrival
(§6); the sender must be a member of the room (else the call fails with no
delivery, modelled as `none`); otherwise one `message_relay_delivery` is
produced per target, with `senderId` set to the authenticated sender's
true identifier — "the server always overwrites/sets the `senderId` field
to the authenticated sender's true connection/user identifier before
forwarding, regardless of any value the client supplied" — the `errors`
list reporting the unreachable targets, and the opaque `relayData` passed
through. -/
def relay {T : Type} (s : RoomStore) (trueSocketId : String) (now : Nat)
    (msg : IMessageRelayMessage T) :
    Option (List (String × IMessageRelayDeliveryMessage T)) :=
  let stamped := stampOnArrival msg trueSocketId now
  match s.get stamped.roomId with
  | none => none
  | some sr =>
    if trueSocketId ∈ sr.room.joinedUsers then
      let errs := relayUnreachable sr.room stamped.receiverIds
      some ((relayTargets sr.room trueSocketId stamped.receiverIds).map
        (fun tgt =>
          (tgt, ⟨"message_relay_delivery", stamped.awaitId, stamped.roomId,
                 trueSocketId, errs, stamped.relayData⟩)))
    else none

/-! ## User Directory (modelled from the spec, §4.3) -/

/-- Modelled from the spec: User Directory state — the user entities and
their registration secrets (`IUserSecret`), which the directory
exclusively owns (§3 Ownership). -/
structure UserDirectory where
  users : List IUser
  secrets : List IUserSecret
deriving Repr, DecidableEq

/-- Modelled from the spec (§4.3): display names are considered "trimmed"
— leading and trailing whitespace characters are ignored. -/
def trimName (s : String) : List Char :=
  ((s.toList.dropWhile Char.isWhitespace).reverse.dropWhile
    Char.isWhitespace).reverse

/-- Modelled from the spec (§4.3): "Display name validation: non-empty,
length within an implementation-chosen minimum/maximum (must be
documented, e.g. 1–32 characters trimmed)."  This model documents the
suggested policy: the trimmed name must be non-empty (else
`missing_display_name`) and at most 32 characters (else
`display_name_too_long`); with minimum length 1, emptiness subsumes the
`display_name_too_short` case. -/
def validateDisplayName (displayName : String) : List UserRegisterErrorCode :=
  let t := trimName displayName
  if t.isEmpty then [.missing_display_name]
  else if t.length > 32 then [.display_name_too_long]
  else []

/-- Modelled from the spec (§4.3): `register(displayName) -> User, secret
| validation errors`.  On a validation error no user entity is created and
the directory is unchanged; on success a fresh user (identifier and
secret are opaque generated strings, passed in here) is added.  Returns
the new directory, the created user and secret if any, and the error-code
list of the response (empty means success, §4.5). -/
def UserDirectory.register (d : UserDirectory) (displayName : String)
    (freshId freshSecret : String) (now : Nat) :
    UserDirectory × Option (IUser × String) × List UserRegisterErrorCode :=
  match validateDisplayName displayName with
  | [] =>
    let u : IUser := ⟨freshId, String.mk (trimName displayName), "", now, none⟩
    (⟨u :: d.users, ⟨freshId, freshSecret⟩ :: d.secrets⟩, some (u, freshSecret), [])
  | errs => (d, none, errs)

/-! ## Plugin set (message shapes from `src/index.d.ts`, behaviour
modelled from the spec, §4.2 and §4.5) -/

/-- Embeds `IRoomEventPluginSet` (src/index.d.ts): the
`room_event__plugin_set` room event, flattening its base fields
(`timestamp`, `roomId`) and its data `{ iframeId, plugin }`. -/
structure IRoomEventPluginSet where
  type : String
  timestamp : Nat
  roomId : String
  iframeId : String
  plugin : Option IPlugin
deriving Repr, DecidableEq

/-- Modelled from the spec (§3): the per-room "per-iframe-slot map"
written by plugin-set, "not shown as a first-class field here but tracked
per room" — keyed by (room identifier, iframe identifier). -/
abbrev PluginSlots := List ((String × String) × Option IPlugin)

/-- Lookup of a plugin slot by (room identifier, iframe identifier). -/
def PluginSlots.get (slots : PluginSlots) (roomId iframeId : String) :
    Option (Option IPlugin) :=
  (slots.find? (fun e => e.1 == (roomId, iframeId))).map (fun e => e.2)

/-- Write a plugin slot, replacing any previous entry for the same key. -/
def PluginSlots.set (slots : PluginSlots) (roomId iframeId : String)
    (plugin : Option IPlugin) : PluginSlots :=
  ((roomId, iframeId), plugin) :: slots.filter (fun e => e.1 ≠ (roomId, iframeId))

/-- Modelled from the spec: outcome of a plugin-set request — the
(possibly updated) slot map, the error-code list of the response (empty
means success, §4.5), and the emitted `room_event__plugin_set` events as
(recipient, event) pairs. -/
structure PluginSetOutcome where
  slots : PluginSlots
  errors : List PluginSetErrorCode
  events : List (String × IRoomEventPluginSet)
deriving Repr, DecidableEq

/-- Modelled from the spec: `setPlugin(roomId, iframeId, plugin|null) ->
ok | {room_not_found, permission_denied}` (§4.2), with the source's
additional `plugin_not_found_in_db` code for a plugin identifier absent
from the Plugin Registry.  "Plugin-set requires the requester be in
`adminUsers` for that room; otherwise `permission_denied`" (§4.2).  On any
failure the slot map is unchanged and no event is emitted (§7: errors
leave state untouched); on success the slot is written and a `plugin_set`
event is emitted "to all members including the setter" (§4.5). -/
def pluginSet (s : RoomStore) (db : List IPlugin) (slots : PluginSlots)
    (requester roomId iframeId : String) (plugin : Option IPlugin)
    (now : Nat) : PluginSetOutcome :=
  match s.get roomId with
  | none => ⟨slots, [.room_not_found], []⟩
  | some sr =>
    if requester ∈ sr.room.adminUsers then
      if plugin.all (fun p => (db.find? (fun q => q.id == p.id)).isSome) then
        let ev : IRoomEventPluginSet :=
          ⟨"room_event__plugin_set", now, roomId, iframeId, plugin⟩
        ⟨slots.set roomId iframeId plugin, [],
         sr.room.joinedUsers.map (fun m => (m, ev))⟩
      else
        ⟨slots, [.plugin_not_found_in_db], []⟩
    else
      ⟨slots, [.permission_denied], []⟩

/-! ## Request/Await Correlator (modelled from the spec, §4.4) -/

/-- Modelled from the spec (§4.5): the completion state of a pending
request — "State machine per pending request: `pending -> fulfilled` or
`pending -> timed-out`, both terminal." -/
inductive PendingState : Type where
  | pending
  | fulfilled
  | timed_out
deriving Repr, DecidableEq

/-- A pending-request state is terminal when it is `fulfilled` or
`timed_out` (§4.5: "both terminal"). -/
def PendingState.isTerminal : PendingState → Bool
  | .pending => false
  | .fulfilled => true
  | .timed_out => true

/-- Modelled from the spec (§4.4): Correlator state — the pending entries
keyed by correlation identifier (`awaitId`).  §3 removes an entry on
fulfillment or timeout; this model keeps it in its terminal state instead,
which is observationally the same (responses for absent and for resolved
identifiers are both dropped) and makes the once-only property explicit. -/
abbrev Correlator := List (String × PendingState)

/-- Lookup of a correlation entry's state. -/
def Correlator.lookup (c : Correlator) (aid : String) : Option PendingState :=
  (c.find? (fun e => e.1 == aid)).map (fun e => e.2)

/-- Modelled from the spec (§4.4): "the issuer records a pending entry
before dispatch".  Identifiers are "unique per connection for the duration
they are outstanding; collision is a caller error", so acceptance assumes
the identifier is not already present. -/
def Correlator.accept (c : Correlator) (aid : String) : Correlator :=
  (aid, .pending) :: c

/-- Set the state recorded for `aid`, keeping every other entry. -/
def Correlator.setState (c : Correlator) (aid : String) (st : PendingState) :
    Correlator :=
  c.map (fun e => if e.1 == aid then (aid, st) else e)

/-- Modelled from the spec (§4.4): a matching response "resolves" the
pending entry; "a second response for an already-resolved identifier is
dropped and logged as a protocol anomaly, not raised as an error to the
caller" — the state is returned unchanged, never an error. -/
def Correlator.onResponse (c : Correlator) (aid : String) : Correlator :=
  match c.lookup aid with
  | some .pending => c.setState aid .fulfilled
  | _ => c

/-- Modelled from the spec (§4.4): the correlator "fails it with a timeout
error after a bounded wait"; a timeout for an already-resolved or unknown
identifier changes nothing. -/
def Correlator.onTimeout (c : Correlator) (aid : String) : Correlator :=
  match c.lookup aid with
  | some .pending => c.setState aid .timed_out
  | _ => c

/-- Modelled from the spec (§4.4): the events the correlator reacts to — a
matching response arriving, or a bounded-wait timeout firing, each naming
a correlation identifier. -/
inductive CorrelatorEv : Type where
  | response (aid : String)
  | timeout (aid : String)
deriving Repr, DecidableEq

/-- Apply one correlator event. -/
def Correlator.step (c : Correlator) : CorrelatorEv → Correlator
  | .response aid => c.onResponse aid
  | .timeout aid => c.onTimeout aid

/-- Apply a sequence of correlator events in arrival order. -/
def Correlator.runTrace (c : Correlator) (evs : List CorrelatorEv) : Correlator :=
  evs.foldl Correlator.step c

/-! ## Basic lemmas about the model -/

@[simp] theorem IBaseRoom.withMembers_id (r : IBaseRoom) (j a : List String) :
    (r.withMembers j a).id = r.id := by
  cases r; rfl

@[simp] theorem IBaseRoom.withMembers_maxUsers (r : IBaseRoom) (j a : List String) :
    (r.withMembers j a).maxUsers = r.maxUsers := by
  cases r; rfl

@[simp] theorem IBaseRoom.withMembers_joinedUsers (r : IBaseRoom) (j a : List String) :
    (r.withMembers j a).joinedUsers = j := by
  cases r; rfl

@[simp] theorem IBaseRoom.withMembers_adminUsers (r : IBaseRoom) (j a : List String) :
    (r.withMembers j a).adminUsers = a := by
  cases r; rfl

theorem RoomStore.get_mem {s : RoomStore} {rid : String} {sr : StoredRoom}
    (h : s.get rid = some sr) : sr ∈ s :=
  List.mem_of_find?_eq_some h

theorem RoomStore.mem_replace {s : RoomStore} {rid : String} {r x : StoredRoom}
    (hx : x ∈ s.replace rid r) : x = r ∨ x ∈ s := by
  rcases List.mem_map.mp hx with ⟨y, hy, hxy⟩
  by_cases hc : (y.room.id == rid) = true
  · rw [if_pos hc] at hxy
    exact Or.inl hxy.symm
  · rw [if_neg hc] at hxy
    exact Or.inr (hxy ▸ hy)

/-- The capacity invariant is preserved by every single room operation. -/
theorem RoomStore.capacityInv_apply {s : RoomStore} (hs : s.capacityInv)
    (op : RoomOp) : (s.apply op).capacityInv := by
  cases op with
  | create id name maxUsers joinSecret =>
    intro sr hsr
    rcases List.mem_cons.mp hsr with h | h
    · subst h
      exact Nat.zero_le _
    · exact hs sr h
  | join roomId userId provided =>
    show ((s.join roomId userId provided).store).capacityInv
    unfold RoomStore.join
    cases hget : s.get roomId with
    | none => exact hs
    | some sr =>
      by_cases hmem : userId ∈ sr.room.joinedUsers
      · simpa [hmem] using hs
      · by_cases hsec : secretOk sr.joinSecret provided
        · by_cases hcap : sr.room.joinedUsers.length < sr.room.maxUsers
          · simp only [hmem, hsec, hcap, if_true, if_false, not_false_iff,
              not_true, ite_true, ite_false]
            intro x hx
            rcases RoomStore.mem_replace hx with hx | hx
            · subst hx
              simp only [IBaseRoom.withMembers_joinedUsers,
                IBaseRoom.withMembers_maxUsers, List.length_append,
                List.length_cons, List.length_nil]
              omega
            · exact hs x hx
          · simpa [hmem, hsec, hcap] using hs
        · simpa [hmem, hsec] using hs
  | leave roomId userId =>
    show (s.leave roomId userId).capacityInv
    unfold RoomStore.leave
    cases hget : s.get roomId with
    | none => exact hs
    | some sr =>
      by_cases hmem : userId ∈ sr.room.joinedUsers
      · simp only [hmem, if_true, ite_true]
        intro x hx
        rcases RoomStore.mem_replace hx with hx | hx
        · subst hx
          simp only [IBaseRoom.withMembers_joinedUsers,
            IBaseRoom.withMembers_maxUsers]
          exact le_trans (List.Sublist.length_le (List.erase_sublist _ _))
            (hs sr (RoomStore.get_mem hget))
        · exact hs x hx
      · simpa [hmem] using hs

/-- The capacity invariant is preserved by every operation sequence. -/
theorem RoomStore.capacityInv_run {s : RoomStore} (hs : s.capacityInv)
    (ops : List RoomOp) : (s.run ops).capacityInv := by
  induction ops generalizing s with
  | nil => exact hs
  | cons op ops ih => exact ih (RoomStore.capacityInv_apply hs op)

/-- The empty room store satisfies the capacity invariant vacuously. -/
theorem RoomStore.capacityInv_nil : RoomStore.capacityInv [] := by
  intro sr hsr
  cases hsr

theorem Correlator.lookup_accept_self (c : Correlator) (aid : String) :
    (c.accept aid).lookup aid = some .pending := by
  simp [Correlator.accept, Correlator.lookup, List.find?_cons]

theorem Correlator.lookup_cons (e : String × PendingState) (c : Correlator)
    (a : String) :
    Correlator.lookup (e :: c) a =
      if (e.1 == a) = true then some e.2 else c.lookup a := by
  by_cases h : (e.1 == a) = true
  · rw [if_pos h]
    unfold Correlator.lookup
    have hf : List.find? (fun x => x.1 == a) (e :: c) = some e :=
      List.find?_cons_of_pos c h
    rw [hf]
    rfl
  · rw [if_neg h]
    unfold Correlator.lookup
    have hf : List.find? (fun x => x.1 == a) (e :: c) =
        List.find? (fun x => x.1 == a) c :=
      List.find?_cons_of_neg c h
    rw [hf]

theorem Correlator.setState_cons (e : String × PendingState) (c : Correlator)
    (b : String) (st : PendingState) :
    Correlator.setState (e :: c) b st =
      (if (e.1 == b) = true then (b, st) else e) :: Correlator.setState c b st :=
  rfl

theorem Correlator.lookup_setState_ne {c : Correlator} {a b : String}
    {st : PendingState} (h : a ≠ b) :
    (c.setState b st).lookup a = c.lookup a := by
  induction c with
  | nil => rfl
  | cons e c ih =>
    rw [Correlator.setState_cons]
    by_cases he : (e.1 == b) = true
    · rw [if_pos he, Correlator.lookup_cons, Correlator.lookup_cons]
      have hba : ((b, st).1 == a) = false := beq_false_of_ne (Ne.symm h)
      have hea : (e.1 == a) = false :=
        beq_false_of_ne ((eq_of_beq he) ▸ Ne.symm h)
      rw [hba, hea]
      simpa using ih
    · rw [if_neg he, Correlator.lookup_cons, Correlator.lookup_cons]
      by_cases hea : (e.1 == a) = true
      · rw [if_pos hea, if_pos hea]
      · rw [if_neg hea, if_neg hea]
        exact ih

theorem Correlator.lookup_setState_self {c : Correlator} {a : String}
    {st : PendingState} (h : (c.lookup a).isSome = true) :
    (c.setState a st).lookup a = some st := by
  induction c with
  | nil => simp [Correlator.lookup] at h
  | cons e c ih =>
    rw [Correlator.setState_cons]
    by_cases he : (e.1 == a) = true
    · rw [if_pos he, Correlator.lookup_cons]
      simp
    · rw [if_neg he, Correlator.lookup_cons, if_neg he]
      rw [Correlator.lookup_cons, if_neg he] at h
      exact ih h

/-- A terminal entry is left unchanged by every correlator event: the
state of a resolved identifier can never change again. -/
theorem Correlator.step_lookup_terminal {c : Correlator} {aid : String}
    {st : PendingState} (hst : st.isTerminal = true)
    (h : c.lookup aid = some st) (ev : CorrelatorEv) :
    (c.step ev).lookup aid = some st := by
  cases ev with
  | response a =>
    show (c.onResponse a).lookup aid = some st
    by_cases ha : a = aid
    · subst ha
      unfold Correlator.onResponse
      rw [h]
      cases st with
      | pending => cases hst
      | fulfilled => exact h
      | timed_out => exact h
    · unfold Correlator.onResponse
      cases hl : c.lookup a with
      | none => exact h
      | some st' =>
        cases st' with
        | pending => exact (Correlator.lookup_setState_ne (Ne.symm ha)).trans h
        | fulfilled => exact h
        | timed_out => exact h
  | timeout a =>
    show (c.onTimeout a).lookup aid = some st
    by_cases ha : a = aid
    · subst ha
      unfold Correlator.onTimeout
      rw [h]
      cases st with
      | pending => cases hst
      | fulfilled => exact h
      | timed_out => exact h
    · unfold Correlator.onTimeout
      cases hl : c.lookup a with
      | none => exact h
      | some st' =>
        cases st' with
        | pending => exact (Correlator.lookup_setState_ne (Ne.symm ha)).trans h
        | fulfilled => exact h
        | timed_out => exact h

/-- A terminal entry survives every event trace unchanged. -/
theorem Correlator.runTrace_lookup_terminal {c : Correlator} {aid : String}
    {st : PendingState} (hst : st.isTerminal = true)
    (h : c.lookup aid = some st) (evs : List CorrelatorEv) :
    (c.runTrace evs).lookup aid = some st := by
  induction evs generalizing c with
  | nil => exact h
  | cons ev evs ih =>
    exact ih (Correlator.step_lookup_terminal hst h ev)

/-- An event that does not name `aid` leaves the state of `aid` unchanged. -/
theorem Correlator.step_lookup_of_ne {c : Correlator} {aid a : String}
    (ha : a ≠ aid) (ev : CorrelatorEv)
    (hev : ev = .response a ∨ ev = .timeout a) :
    (c.step ev).lookup aid = c.lookup aid := by
  have hcase : ∀ c' : Correlator, (c'.setState a PendingState.fulfilled).lookup aid
      = c'.lookup aid := fun c' => Correlator.lookup_setState_ne (Ne.symm ha)
  rcases hev with hev | hev <;> subst hev
  · show (c.onResponse a).lookup aid = c.lookup aid
    unfold Correlator.onResponse
    cases hl : c.lookup a with
    | none => rfl
    | some st' =>
      cases st' with
      | pending => exact Correlator.lookup_setState_ne (Ne.symm ha)
      | fulfilled => rfl
      | timed_out => rfl
  · show (c.onTimeout a).lookup aid = c.lookup aid
    unfold Correlator.onTimeout
    cases hl : c.lookup a with
    | none => rfl
    | some st' =>
      cases st' with
      | pending => exact Correlator.lookup_setState_ne (Ne.symm ha)
      | fulfilled => rfl
      | timed_out => rfl

/-- A pending entry that sees a response or a timeout for its identifier
somewhere in the trace ends up in a terminal state. -/
theorem Correlator.runTrace_terminal_of_resolving {aid : String}
    (evs : List CorrelatorEv) :
    ∀ c : Correlator, c.lookup aid = some .pending →
      (CorrelatorEv.response aid ∈ evs ∨ CorrelatorEv.timeout aid ∈ evs) →
      ((c.runTrace evs).lookup aid).any PendingState.isTerminal = true := by
  induction evs with
  | nil =>
    intro c _ hmem
    rcases hmem with hmem | hmem <;> cases hmem
  | cons ev evs ih =>
    intro c h hmem
    have hstep : c.runTrace (ev :: evs) = (c.step ev).runTrace evs := rfl
    rw [hstep]
    by_cases hev : ev = CorrelatorEv.response aid ∨ ev = CorrelatorEv.timeout aid
    · have hsome : (c.lookup aid).isSome = true := by rw [h]; rfl
      rcases hev with hev | hev <;> subst hev
      · have h1 : (c.step (.response aid)).lookup aid = some .fulfilled := by
          show (c.onResponse aid).lookup aid = some .fulfilled
          unfold Correlator.onResponse
          rw [h]
          exact Correlator.lookup_setState_self hsome
        rw [Correlator.runTrace_lookup_terminal
          (show PendingState.fulfilled.isTerminal = true from rfl) h1 evs]
        rfl
      · have h1 : (c.step (.timeout aid)).lookup aid = some .timed_out := by
          show (c.onTimeout aid).lookup aid = some .timed_out
          unfold Correlator.onTimeout
          rw [h]
          exact Correlator.lookup_setState_self hsome
        rw [Correlator.runTrace_lookup_terminal
          (show PendingState.timed_out.isTerminal = true from rfl) h1 evs]
        rfl
    · push_neg at hev
      have hmem' : CorrelatorEv.response aid ∈ evs ∨ CorrelatorEv.timeout aid ∈ evs := by
        rcases hmem with hmem | hmem
        · rcases List.mem_cons.mp hmem with hmem | hmem
          · exact absurd hmem.symm hev.1
          · exact Or.inl hmem
        · rcases List.mem_cons.mp hmem with hmem | hmem
          · exact absurd hmem.symm hev.2
          · exact Or.inr hmem
      have hpres : (c.step ev).lookup aid = some .pending := by
        cases ev with
        | response a =>
          by_cases ha : a = aid
          · exact absurd (ha ▸ rfl) hev.1
          · exact (Correlator.step_lookup_of_ne ha _ (Or.inl rfl)).trans h
        | timeout a =>
          by_cases ha : a = aid
          · exact absurd (ha ▸ rfl) hev.2
          · exact (Correlator.step_lookup_of_ne ha _ (Or.inr rfl)).trans h
      exact ih _ hpres hmem'

/-- Join of a nonexistent room: error `does_not_exist`, store unchanged. -/
theorem RoomStore.join_of_get_none {s : RoomStore} {rid uid : String}
    {provided : Option String} (h : s.get rid = none) :
    s.join rid uid provided = ⟨s, [.does_not_exist]⟩ := by
  unfold RoomStore.join
  rw [h]

/-- Join by a user already in the room: error `already_joined`, store
unchanged, regardless of credential and capacity. -/
theorem RoomStore.join_of_mem {s : RoomStore} {rid uid : String}
    {provided : Option String} {sr : StoredRoom} (h : s.get rid = some sr)
    (hmem : uid ∈ sr.room.joinedUsers) :
    s.join rid uid provided = ⟨s, [.already_joined]⟩ := by
  unfold RoomStore.join
  rw [h]
  simp [hmem]

/-- Join failing the credential check: error `wrong_password`, store
unchanged, regardless of capacity. -/
theorem RoomStore.join_of_bad_secret {s : RoomStore} {rid uid : String}
    {provided : Option String} {sr : StoredRoom} (h : s.get rid = some sr)
    (hmem : uid ∉ sr.room.joinedUsers)
    (hsec : secretOk sr.joinSecret provided = false) :
    s.join rid uid provided = ⟨s, [.wrong_password]⟩ := by
  unfold RoomStore.join
  rw [h]
  simp [hmem, hsec]

/-- Join of a room at (or beyond) capacity, all earlier checks passing:
error `already_full`, store unchanged. -/
theorem RoomStore.join_of_full {s : RoomStore} {rid uid : String}
    {provided : Option String} {sr : StoredRoom} (h : s.get rid = some sr)
    (hmem : uid ∉ sr.room.joinedUsers)
    (hsec : secretOk sr.joinSecret provided = true)
    (hcap : ¬ sr.room.joinedUsers.length < sr.room.maxUsers) :
    s.join rid uid provided = ⟨s, [.already_full]⟩ := by
  unfold RoomStore.join
  rw [h]
  simp [hmem, hsec, hcap]

/-- Join with all checks passing: no errors, the user is appended to the
room's `joinedUsers`. -/
theorem RoomStore.join_of_ok {s : RoomStore} {rid uid : String}
    {provided : Option String} {sr : StoredRoom} (h : s.get rid = some sr)
    (hmem : uid ∉ sr.room.joinedUsers)
    (hsec : secretOk sr.joinSecret provided = true)
    (hcap : sr.room.joinedUsers.length < sr.room.maxUsers) :
    s.join rid uid provided =
      ⟨s.replace rid ⟨sr.room.withMembers (sr.room.joinedUsers ++ [uid])
        sr.room.adminUsers, sr.joinSecret⟩, []⟩ := by
  unfold RoomStore.join
  rw [h]
  simp [hmem, hsec, hcap]

/-! ## The claims -/

/-- C2: for every room and every sequence of join and leave operations
starting from room creation, the invariant `joinedUsers.length ≤ maxUsers`
holds after each operation: every operation sequence run from the initial
(empty) store — room creations included — yields a store in which every
room satisfies the bound, and each single operation preserves the bound. -/
theorem join_leave_capacity_invariant :
    (∀ ops : List RoomOp, (RoomStore.run [] ops).capacityInv) ∧
    (∀ (s : RoomStore) (op : RoomOp), s.capacityInv → (s.apply op).capacityInv) :=
  ⟨fun ops => RoomStore.capacityInv_run RoomStore.capacityInv_nil ops,
   fun _ op hs => RoomStore.capacityInv_apply hs op⟩

theorem join_leave_capacity_invariant_witness :
    RoomStore.capacityInv (RoomStore.apply
      (RoomStore.run []
        [.create "r" "standup" 2 none, .join "r" "A" none])
      (.join "r" "B" none)) :=
  join_leave_capacity_invariant.2 _ _
    (join_leave_capacity_invariant.1
      [.create "r" "standup" 2 none, .join "r" "A" none])

/-- C3: join validation is performed in the fixed order (1) room exists,
(2) requester not already joined, (3) credential check, (4) capacity
check; the first failing check determines the single error returned, the
store is unchanged on every failure, and the capacity check admits the
user exactly when `joinedUsers.length < maxUsers` (strict less-than) at
admission time. -/
theorem join_validation_order (s : RoomStore) (rid uid : String)
    (provided : Option String) :
    (s.get rid = none → s.join rid uid provided = ⟨s, [.does_not_exist]⟩) ∧
    (∀ sr, s.get rid = some sr → uid ∈ sr.room.joinedUsers →
      s.join rid uid provided = ⟨s, [.already_joined]⟩) ∧
    (∀ sr, s.get rid = some sr → uid ∉ sr.room.joinedUsers →
      secretOk sr.joinSecret provided = false →
      s.join rid uid provided = ⟨s, [.wrong_password]⟩) ∧
    (∀ sr, s.get rid = some sr → uid ∉ sr.room.joinedUsers →
      secretOk sr.joinSecret provided = true →
      ¬ sr.room.joinedUsers.length < sr.room.maxUsers →
      s.join rid uid provided = ⟨s, [.already_full]⟩) ∧
    (∀ sr, s.get rid = some sr → uid ∉ sr.room.joinedUsers →
      secretOk sr.joinSecret provided = true →
      sr.room.joinedUsers.length < sr.room.maxUsers →
      s.join rid uid provided =
        ⟨s.replace rid ⟨sr.room.withMembers (sr.room.joinedUsers ++ [uid])
          sr.room.adminUsers, sr.joinSecret⟩, []⟩) :=
  ⟨fun h => RoomStore.join_of_get_none h,
   fun _ h hmem => RoomStore.join_of_mem h hmem,
   fun _ h hmem hsec => RoomStore.join_of_bad_secret h hmem hsec,
   fun _ h hmem hsec hcap => RoomStore.join_of_full h hmem hsec hcap,
   fun _ h hmem hsec hcap => RoomStore.join_of_ok h hmem hsec hcap⟩

theorem join_validation_order_witness :
    RoomStore.join [] "r" "u" none = ⟨[], [.does_not_exist]⟩ :=
  (join_validation_order [] "r" "u" none).1 rfl

/-- C5: a join request by a user already in the room's `joinedUsers`
returns the single error `already_joined` and leaves the store — in
particular the room's membership — unchanged: the user is not inserted a
second time. -/
theorem join_already_joined_idempotent (s : RoomStore) (rid uid : String)
    (provided : Option String) (sr : StoredRoom) (h : s.get rid = some sr)
    (hmem : uid ∈ sr.room.joinedUsers) :
    s.join rid uid provided = ⟨s, [.already_joined]⟩ :=
  RoomStore.join_of_mem h hmem

theorem join_already_joined_idempotent_witness :
    RoomStore.join [⟨IBaseRoom.mk "r" "standup" 2 ["A"] [] [] none none, none⟩]
      "r" "A" none =
      ⟨[⟨IBaseRoom.mk "r" "standup" 2 ["A"] [] [] none none, none⟩],
       [.already_joined]⟩ :=
  join_already_joined_idempotent _ "r" "A" none _ rfl (by decide)

/-- A room store holding one full room that requires a join credential:
one spot, taken by user A, password "pw". -/
def fullLockedStore : RoomStore :=
  [⟨IBaseRoom.mk "r" "locked" 1 ["A"] [] [] none none, some "pw"⟩]

/-- C4 counterexample: the claim "for EVERY room whose joinedUsers count
equals maxUsers, a join request by a non-member returns already_full" is
false: in `fullLockedStore` the room is full (1 of 1) and "C" is a
non-member, yet the join — supplying no password — returns
`wrong_password`, because the §4.2 credential check (3) precedes the
capacity check (4). -/
theorem join_full_room_counterexample :
    (fullLockedStore.join "r" "C" none).errors = [.wrong_password] ∧
    (fullLockedStore.join "r" "C" none).errors ≠ [.already_full] := by
  constructor
  · rfl
  · decide

/-- The §8 scenario store: room "standup" with `maxUsers = 2` and no
credential, after users A and B joined. -/
def standupStore : RoomStore :=
  RoomStore.run []
    [.create "standup-id" "standup" 2 none,
     .join "standup-id" "A" none,
     .join "standup-id" "B" none]

/-- C4 (amended): for every room whose `joinedUsers` count equals
`maxUsers`, a join request by a non-member that passes the credential
check returns the single error `already_full` and the store — hence the
room's membership — is unchanged; in particular, in the §8 scenario
(create `maxUsers = 2`, join A yielding `joinedUsers = ["A"]`, join B
yielding `["A", "B"]`), a join by C returns `already_full` with membership
unchanged. -/
theorem join_full_room (s : RoomStore) (rid uid : String)
    (provided : Option String) (sr : StoredRoom) (h : s.get rid = some sr)
    (hmem : uid ∉ sr.room.joinedUsers)
    (hsec : secretOk sr.joinSecret provided = true)
    (hfull : sr.room.joinedUsers.length = sr.room.maxUsers) :
    s.join rid uid provided = ⟨s, [.already_full]⟩ ∧
    ((RoomStore.run []
        [.create "standup-id" "standup" 2 none,
         .join "standup-id" "A" none]).get "standup-id").map
      (fun sr => sr.room.joinedUsers) = some ["A"] ∧
    (standupStore.get "standup-id").map
      (fun sr => sr.room.joinedUsers) = some ["A", "B"] ∧
    standupStore.join "standup-id" "C" none = ⟨standupStore, [.already_full]⟩ :=
  ⟨RoomStore.join_of_full h hmem hsec (by omega),
   rfl, rfl,
   RoomStore.join_of_full rfl (by decide) rfl (by decide)⟩

theorem join_full_room_witness :
    RoomStore.join [⟨IBaseRoom.mk "q" "solo" 1 ["A"] [] [] none none, none⟩]
      "q" "B" none =
      ⟨[⟨IBaseRoom.mk "q" "solo" 1 ["A"] [] [] none none, none⟩],
       [.already_full]⟩ :=
  (join_full_room [⟨IBaseRoom.mk "q" "solo" 1 ["A"] [] [] none none, none⟩]
    "q" "B" none ⟨IBaseRoom.mk "q" "solo" 1 ["A"] [] [] none none, none⟩
    rfl (by decide) rfl rfl).1

/-- C7: every accepted request's `awaitId` reaches exactly one terminal
outcome — once an identifier is resolved (fulfilled or timed-out) its
recorded outcome survives every further event unchanged, so it is never
resolved twice, and a second response for an already-resolved identifier
is dropped (the correlator state is returned unchanged, no error is
raised); and an accepted identifier whose trace contains a matching
response or a timeout — the bounded wait guarantees one — ends in a
terminal state. -/
theorem awaitId_exactly_one_resolution :
    (∀ (c : Correlator) (aid : String) (st : PendingState)
       (evs : List CorrelatorEv),
      st.isTerminal = true → c.lookup aid = some st →
      (c.runTrace evs).lookup aid = some st ∧ c.onResponse aid = c) ∧
    (∀ (c : Correlator) (aid : String) (evs : List CorrelatorEv),
      (CorrelatorEv.response aid ∈ evs ∨ CorrelatorEv.timeout aid ∈ evs) →
      (((c.accept aid).runTrace evs).lookup aid).any
        PendingState.isTerminal = true) := by
  constructor
  · intro c aid st evs hst h
    refine ⟨Correlator.runTrace_lookup_terminal hst h evs, ?_⟩
    unfold Correlator.onResponse
    rw [h]
    cases st with
    | pending => cases hst
    | fulfilled => rfl
    | timed_out => rfl
  · intro c aid evs hmem
    exact Correlator.runTrace_terminal_of_resolving evs (c.accept aid)
      (Correlator.lookup_accept_self c aid) hmem

theorem awaitId_exactly_one_resolution_witness :
    (((Correlator.accept [] "req-1").runTrace
      [CorrelatorEv.response "req-1", CorrelatorEv.response "req-1"]).lookup
        "req-1").any PendingState.isTerminal = true :=
  awaitId_exactly_one_resolution.2 [] "req-1"
    [CorrelatorEv.response "req-1", CorrelatorEv.response "req-1"]
    (Or.inl (by decide))

/-- C8: a `plugin_set` request on an existing room by a requester who is a
member but not in the room's `adminUsers` yields the single error
`permission_denied`, the slot map — hence the room's plugin slot for that
`iframeId` — is unchanged, and no `room_event__plugin_set` event is
emitted to any member. -/
theorem plugin_set_permission_denied (s : RoomStore) (db : List IPlugin)
    (slots : PluginSlots) (requester rid iframeId : String)
    (plugin : Option IPlugin) (now : Nat) (sr : StoredRoom)
    (h : s.get rid = some sr) (_hmem : requester ∈ sr.room.joinedUsers)
    (hadmin : requester ∉ sr.room.adminUsers) :
    pluginSet s db slots requester rid iframeId plugin now =
      ⟨slots, [.permission_denied], []⟩ := by
  unfold pluginSet
  rw [h]
  simp [hadmin]

theorem plugin_set_permission_denied_witness :
    pluginSet [⟨IBaseRoom.mk "r" "standup" 2 ["A", "B"] ["B"] [] none none, none⟩]
      [] [] "A" "r" "main" none 7 =
      ⟨[], [.permission_denied], []⟩ :=
  plugin_set_permission_denied _ [] [] "A" "r" "main" none 7 _ rfl
    (by decide) (by decide)

/-- C9: a `user_register` request with an empty `displayName` yields the
single error code `missing_display_name`, no user entity is created, and
the User Directory is unchanged. -/
theorem register_empty_display_name (d : UserDirectory)
    (freshId freshSecret : String) (now : Nat) :
    d.register "" freshId freshSecret now =
      (d, none, [.missing_display_name]) := by
  rfl

theorem register_empty_display_name_witness :
    UserDirectory.register ⟨[], []⟩ "" "user-1" "secret-1" 0 =
      (⟨[], []⟩, none, [.missing_display_name]) :=
  register_empty_display_name ⟨[], []⟩ "user-1" "secret-1" 0

/-- C1: every `message_relay_delivery` the server forwards carries the
authenticated sender's true identifier in `senderId`, for every value
(including a forged one) the client put into its request's forgeable
`socketId` field — no delivery ever carries a client-chosen sender. -/
theorem relay_senderId_always_authenticated {T : Type} (s : RoomStore)
    (sender : String) (now : Nat) (msg : IMessageRelayMessage T)
    (forged : Option String) :
    ((relay s sender now { msg with socketId := forged }).getD []).all
      (fun p => p.2.senderId == sender) = true := by
  unfold relay stampOnArrival
  cases hget : RoomStore.get s msg.roomId with
  | none => simp [hget]
  | some sr =>
    by_cases hmem : sender ∈ sr.room.joinedUsers
    · simp [hget, hmem, List.all_eq_true]
    · simp [hget, hmem]

/-- C6: for a `message_relay` request by a room member: with `receiverIds`
omitted, the payload is delivered to exactly the other members of the room
(the sender does not receive its own message); with `receiverIds`
supplied, it is delivered to exactly the identifiers that are both room
members and in `receiverIds`, non-member identifiers are silently dropped
without failing the call (the relay still returns deliveries), and every
delivery's `errors` list reports exactly the unreachable targets. -/
theorem relay_targets_characterization {T : Type} (s : RoomStore)
    (sender : String) (now : Nat) (msg : IMessageRelayMessage T)
    (sr : StoredRoom) (h : s.get msg.roomId = some sr)
    (hmem : sender ∈ sr.room.joinedUsers) :
    (relay s sender now msg).isSome = true ∧
    (msg.receiverIds = none →
      ∀ t, t ∈ ((relay s sender now msg).getD []).map Prod.fst ↔
        (t ∈ sr.room.joinedUsers ∧ t ≠ sender)) ∧
    (∀ rs, msg.receiverIds = some rs →
      (∀ t, t ∈ ((relay s sender now msg).getD []).map Prod.fst ↔
        (t ∈ sr.room.joinedUsers ∧ t ∈ rs)) ∧
      ((relay s sender now msg).getD []).all
        (fun p => p.2.errors ==
          rs.filter (fun r => r ∉ sr.room.joinedUsers)) = true) := by
  have hrel : relay s sender now msg =
      some ((relayTargets sr.room sender msg.receiverIds).map
        (fun tgt => (tgt, ⟨"message_relay_delivery", msg.awaitId, msg.roomId,
          sender, relayUnreachable sr.room msg.receiverIds, msg.relayData⟩))) := by
    unfold relay stampOnArrival
    simp [h, hmem]
  refine ⟨by simp [hrel], ?_, ?_⟩
  · intro hnone t
    simp [hrel, relayTargets, hnone, List.mem_filter]
  · intro rs hrs
    refine ⟨fun t => ?_, ?_⟩
    · simp [hrel, relayTargets, hrs, List.mem_filter]
    · simp [hrel, relayUnreachable, hrs, List.all_map, Function.comp]

theorem relay_targets_characterization_witness :
    (relay [⟨IBaseRoom.mk "R" "room" 4 ["A", "B"] [] [] none none, none⟩]
      "A" 0 (⟨"await-1", none, none, "R", none, (42 : Nat)⟩ :
        IMessageRelayMessage Nat)).isSome = true :=
  (relay_targets_characterization
    [⟨IBaseRoom.mk "R" "room" 4 ["A", "B"] [] [] none none, none⟩]
    "A" 0 (⟨"await-1", none, none, "R", none, (42 : Nat)⟩ :
      IMessageRelayMessage Nat)
    ⟨IBaseRoom.mk "R" "room" 4 ["A", "B"] [] [] none none, none⟩
    rfl (by decide)).1

theorem relay_senderId_always_authenticated_witness :
    ((relay [⟨IBaseRoom.mk "R" "room" 4 ["A", "B"] [] [] none none, none⟩]
      "A" 0 (⟨"aw", none, some "EVIL", "R", none, (0 : Nat)⟩ :
        IMessageRelayMessage Nat)).getD []).all
      (fun p => p.2.senderId == "A") = true :=
  relay_senderId_always_authenticated
    [⟨IBaseRoom.mk "R" "room" 4 ["A", "B"] [] [] none none, none⟩]
    "A" 0 ⟨"aw", none, none, "R", none, 0⟩ (some "EVIL")

/-- C10: every delivered `message_relay_delivery` carries exactly the
`relayData` the sender supplied in its `message_relay` request, unchanged. -/
theorem relay_relayData_unchanged {T : Type} [DecidableEq T] (s : RoomStore)
    (sender : String) (now : Nat) (msg : IMessageRelayMessage T) :
    ((relay s sender now msg).getD []).all
      (fun p => decide (p.2.relayData = msg.relayData)) = true := by
  unfold relay stampOnArrival
  cases hget : RoomStore.get s msg.roomId with
  | none => simp [hget]
  | some sr =>
    by_cases hmem : sender ∈ sr.room.joinedUsers
    · simp [hget, hmem, List.all_eq_true]
    · simp [hget, hmem]

theorem relay_relayData_unchanged_witness :
    ((relay [⟨IBaseRoom.mk "R" "room" 4 ["A", "B"] [] [] none none, none⟩]
      "A" 0 (⟨"aw", none, none, "R", none, (42 : Nat)⟩ :
        IMessageRelayMessage Nat)).getD []).all
      (fun p => decide (p.2.relayData = 42)) = true :=
  relay_relayData_unchanged
    [⟨IBaseRoom.mk "R" "room" 4 ["A", "B"] [] [] none none, none⟩]
    "A" 0 ⟨"aw", none, none, "R", none, 42⟩

end Quackamole
